import Mathlib

/-!
Shallow embedding of `src/main.py` (Yt-backend): the format classifier
`filter_formats`, the metadata formatters `format_duration` / `format_views`,
and the pure tail of the `/yt/info` endpoint `get_video_info` (everything after
`extract_info` returns), together with proofs about the spec's claims.

Python dictionaries with optional keys become structures of `Option` fields;
Python truthiness (`None`, `0`, `""` falsy) is modelled explicitly; a raised
exception becomes an `Option.none` / `Except.error` result.
-/

/-- Raw resolution dedup key: in `res = f.get('height') or f.get('format_note')`
the value is either a Python int (the height) or a string (the note).  The two
kinds never compare equal in Python. -/
inductive ResVal where
  | num (n : Nat)
  | str (s : String)
deriving DecidableEq

/-- Audio quality value: `f.get('format_note') or f.get('abr') or "Standard"`
produces a string or a number. -/
inductive QualVal where
  | str (s : String)
  | num (n : Nat)
deriving DecidableEq

/-- One raw stream descriptor (a loosely-typed dict from the source adapter);
absent keys are `none`, matching `dict.get`. -/
structure Desc where
  protocol : Option String := none
  url : Option String := none
  vcodec : Option String := none
  acodec : Option String := none
  ext : Option String := none
  height : Option Nat := none
  format_note : Option String := none
  abr : Option Nat := none
  filesize : Option Nat := none
  filesize_approx : Option Nat := none
  format_id : Option String := none
deriving DecidableEq

/-- Python truthiness of an optional string: `None` and the empty string are falsy. -/
def strTruthy : Option String → Bool
  | some s => s ≠ ""
  | none => false

/-- The format-note half of the `or` chain computing `res` (falsy note gives `None`). -/
def noteVal (f : Desc) : Option ResVal :=
  match f.format_note with
  | some s => if s = "" then none else some (.str s)
  | none => none

/-- Line 69 of main.py: `res = f.get('height') or f.get('format_note')`; `none`
when the resulting value is falsy, so that the `if res` guard fails. -/
def resOf (f : Desc) : Option ResVal :=
  match f.height with
  | some h => if h = 0 then noteVal f else some (.num h)
  | none => noteVal f

/-- The `abr`-or-"Standard" tail of the quality fallback chain. -/
def abrQual (f : Desc) : QualVal :=
  match f.abr with
  | some n => if n = 0 then .str "Standard" else .num n
  | none => .str "Standard"

/-- Line 83 of main.py: `f.get('format_note') or f.get('abr') or "Standard"`. -/
def qualityOf (f : Desc) : QualVal :=
  match f.format_note with
  | some s => if s = "" then abrQual f else .str s
  | none => abrQual f

/-- Lines 74 and 85 of main.py: `f.get('filesize') or f.get('filesize_approx')`
with Python `or` semantics (a present but zero filesize falls through). -/
def filesizeOf (f : Desc) : Option Nat :=
  match f.filesize with
  | some n => if n = 0 then f.filesize_approx else some n
  | none => f.filesize_approx

/-- Line 65 of main.py: `f.get('protocol') in ('https', 'http', None) and f.get('url')`. -/
def eligible (f : Desc) : Bool :=
  (f.protocol == some "https" || f.protocol == some "http" || f.protocol == none)
    && strTruthy f.url

/-- Line 68 of main.py: `f.get('vcodec') != 'none' and f.get('acodec') != 'none'
and f.get('ext') == 'mp4'` (an absent codec key also differs from "none"). -/
def isCombinedShape (f : Desc) : Bool :=
  f.vcodec != some "none" && f.acodec != some "none" && f.ext == some "mp4"

/-- Line 81 of main.py: `f.get('vcodec') == 'none' and f.get('acodec') != 'none'
and f.get('ext') in ('m4a', 'mp4')`. -/
def isAudioShape (f : Desc) : Bool :=
  f.vcodec == some "none" && f.acodec != some "none"
    && (f.ext == some "m4a" || f.ext == some "mp4")

/-- One entry of `combined_formats` (keys of the dict built on lines 71-77). -/
structure CFmt where
  resolution : String
  ext : Option String
  filesize : Option Nat
  url : String
  format_id : String
deriving DecidableEq

/-- One entry of `audio_only_formats` (keys of the dict built on lines 82-88). -/
structure AFmt where
  quality : QualVal
  ext : Option String
  filesize : Option Nat
  url : String
  format_id : String
deriving DecidableEq

/-- Python interpolation `f"{res}p"` on the raw resolution value. -/
def resDisplay : ResVal → String
  | .num n => toString n ++ "p"
  | .str s => s ++ "p"

/-- The combined-format record appended on lines 71-77 of main.py,
given the raw resolution value `r` and the format id `fid`. -/
def mkCFmt (f : Desc) (r : ResVal) (fid : String) : CFmt :=
  { resolution := resDisplay r, ext := f.ext, filesize := filesizeOf f,
    url := f.url.getD "", format_id := fid }

/-- The audio-only record appended on lines 82-88 of main.py. -/
def mkAFmt (f : Desc) (fid : String) : AFmt :=
  { quality := qualityOf f, ext := f.ext, filesize := filesizeOf f,
    url := f.url.getD "", format_id := fid }

/-- Loop state of `filter_formats`: the two accumulator lists and the
`seen_resolutions` set (modelled as the list of inserted keys). -/
structure St where
  combined : List CFmt
  audio : List AFmt
  seen : List ResVal
deriving DecidableEq

/-- Initial loop state: two empty lists and an empty seen-set. -/
def initSt : St := ⟨[], [], []⟩

/-- One iteration of the `for f in formats` loop of `filter_formats`
(lines 64-88 of main.py).  The `Option.none` result models the `KeyError`
raised by the bare subscript `f['format_id']` when that key is absent. -/
def step (s : St) (f : Desc) : Option St :=
  if eligible f then
    if isCombinedShape f then
      match resOf f with
      | some r =>
        if r ∈ s.seen then some s
        else
          match f.format_id with
          | some fid =>
            some ⟨s.combined ++ [mkCFmt f r fid], s.audio, s.seen ++ [r]⟩
          | none => none
      | none => some s
    else if isAudioShape f then
      match f.format_id with
      | some fid => some ⟨s.combined, s.audio ++ [mkAFmt f fid], s.seen⟩
      | none => none
    else some s
  else some s

/-- The whole descriptor loop, threading the state; `none` propagates a raise. -/
def runSteps : List Desc → St → Option St
  | [], s => some s
  | f :: fs, s =>
    match step s f with
    | some t => runSteps fs t
    | none => none

/-- Python `x['resolution'].replace('p', '')`. -/
def stripP (s : String) : String := String.mk (s.data.filter (fun c => c ≠ 'p'))

/-- Python `str.isdigit`, restricted to ASCII: nonempty and all digit characters. -/
def isDigits (s : String) : Bool := s ≠ "" && s.data.all Char.isDigit

/-- Numeric value of a digit string, as Python `int` reads it. -/
def digitsVal (s : String) : Nat := s.data.foldl (fun a c => a * 10 + (c.toNat - 48)) 0

/-- The sort key of line 90 of main.py:
`int(x['resolution'].replace('p', '').replace('N/A', '0'))` when the
p-stripped resolution is all digits, else `0`.  On a digit string the
`replace('N/A', '0')` is the identity, so it is dropped here. -/
def pySortKey (x : CFmt) : Nat :=
  if isDigits (stripP x.resolution) then digitsVal (stripP x.resolution) else 0

/-- Comparison by the line-90 sort key. -/
def keyLe (x y : CFmt) : Prop := pySortKey x ≤ pySortKey y

instance : DecidableRel keyLe :=
  fun x y => inferInstanceAs (Decidable (pySortKey x ≤ pySortKey y))

instance : IsTotal CFmt keyLe := ⟨fun x y => Nat.le_total (pySortKey x) (pySortKey y)⟩

instance : IsTrans CFmt keyLe := ⟨fun _ _ _ h h2 => Nat.le_trans h h2⟩

/-- Line 90 of main.py: `combined_formats.sort(key=...)`.  Python `list.sort`
is a stable ascending sort; insertion sort with `keyLe` computes the same list. -/
def sortCombined (l : List CFmt) : List CFmt := List.insertionSort keyLe l

/-- Lines 92-96 of main.py: the `unique_audio` dict keeps the first occurrence
per `(ext, quality)` key, in insertion order. -/
def dedupAudio : List AFmt → List (Option String × QualVal) → List AFmt
  | [], _ => []
  | a :: l, seen =>
    if (a.ext, a.quality) ∈ seen then dedupAudio l seen
    else a :: dedupAudio l ((a.ext, a.quality) :: seen)

/-- The function `filter_formats` of main.py (lines 58-98): loop, sort of the
combined list, dedup of the audio list.  `none` models an uncaught `KeyError`. -/
def filter_formats (formats : List Desc) : Option (List CFmt × List AFmt) :=
  match runSteps formats initSt with
  | some s => some (sortCombined s.combined, dedupAudio s.audio [])
  | none => none

/-- Provenance of a combined output entry: an eligible descriptor with
non-"none" video and audio codecs and extension "mp4", a truthy raw resolution
and a format id, from which the entry was built. -/
def CombProv (f : Desc) (x : CFmt) : Prop :=
  eligible f = true ∧ f.vcodec ≠ some "none" ∧ f.acodec ≠ some "none" ∧
    f.ext = some "mp4" ∧
    ∃ r fid, resOf f = some r ∧ f.format_id = some fid ∧ x = mkCFmt f r fid

/-- Provenance of an audio-only output entry: an eligible descriptor whose
video codec is the "none" marker, whose audio codec differs from "none", with
extension "m4a" or "mp4" and a format id, from which the entry was built. -/
def AudProv (f : Desc) (y : AFmt) : Prop :=
  eligible f = true ∧ f.vcodec = some "none" ∧ f.acodec ≠ some "none" ∧
    (f.ext = some "m4a" ∨ f.ext = some "mp4") ∧
    ∃ fid, f.format_id = some fid ∧ y = mkAFmt f fid

/-- A combined output record re-read as a raw descriptor, as when the
classifier output is fed back to the classifier: only the keys present in the
output dict (`resolution`, `ext`, `filesize`, `url`, `format_id`) exist, and
`resolution` is not a key the classifier reads. -/
def cfmtToDesc (x : CFmt) : Desc :=
  { url := some x.url, ext := x.ext, filesize := x.filesize,
    format_id := some x.format_id }

/-- An audio output record re-read as a raw descriptor (its `quality` key is
not a key the classifier reads). -/
def afmtToDesc (y : AFmt) : Desc :=
  { url := some y.url, ext := y.ext, filesize := y.filesize,
    format_id := some y.format_id }

/-- Loosely-typed input to `format_duration`: Python `None`, an int, or a
string (the string case covers non-integer input for the conversion rules). -/
inductive DurIn where
  | none
  | int (n : Nat)
  | str (s : String)
deriving DecidableEq

/-- Python `int(...)` conversion as applied to a `format_duration` input:
succeeds on ints and on digit strings, fails (raises `ValueError` /
`TypeError`) otherwise. -/
def pyInt : DurIn → Option Nat
  | .int n => some n
  | .str s => if isDigits s then some (digitsVal s) else none
  | .none => none

/-- Python `f"{n:02d}"`: decimal, left-padded with a zero to width two. -/
def pad2 (n : Nat) : String := if n < 10 then "0" ++ toString n else toString n

/-- The function `format_duration` of main.py (lines 33-43).  There is no
try/except around `int(seconds)`, so a non-convertible non-`None` input
raises; that raise is the `Option.none` result. -/
def format_duration (seconds : DurIn) : Option String :=
  match seconds with
  | .none => some "N/A"
  | v =>
    match pyInt v with
    | some n =>
      let hours := n / 3600
      let minutes := (n % 3600) / 60
      let secs := n % 60
      if hours > 0 then some (pad2 hours ++ ":" ++ pad2 minutes ++ ":" ++ pad2 secs)
      else some (pad2 minutes ++ ":" ++ pad2 secs)
    | none => none

/-- Python `f"{x:.1f}"` applied to `views / divisor`, modelled with integer
arithmetic, rounding half up. -/
def oneDec (views divisor : Nat) : String :=
  let tenths := (views * 10 + divisor / 2) / divisor
  toString (tenths / 10) ++ "." ++ toString (tenths % 10)

/-- The function `format_views` of main.py (lines 45-56). -/
def format_views (views : Option Nat) : String :=
  match views with
  | none => "N/A"
  | some v =>
    if v ≥ 1000000000 then oneDec v 1000000000 ++ "B"
    else if v ≥ 1000000 then oneDec v 1000000 ++ "M"
    else if v ≥ 1000 then oneDec v 1000 ++ "K"
    else toString v

/-- One raw thumbnail dict from the extractor. -/
structure Thumb where
  url : Option String := none
  width : Option Nat := none
  height : Option Nat := none
deriving DecidableEq

/-- One entry of `processed_thumbnails` (line 152 of main.py). -/
structure ProcThumb where
  url : String
  resolution : String
deriving DecidableEq

/-- Python `f"{v}"` on an optional int: `None` prints as the string "None". -/
def pyShow : Option Nat → String
  | some n => toString n
  | none => "None"

/-- The dict built on line 152 of main.py for one kept thumbnail. -/
def mkProcThumb (t : Thumb) : ProcThumb :=
  { url := t.url.getD "", resolution := pyShow t.width ++ "x" ++ pyShow t.height }

/-- The thumbnail sort key of line 154:
`int(x['resolution'].split('x')[0]) if 'x' in x['resolution'] else 0`;
`none` models the `ValueError` raised by `int` on a non-digit prefix. -/
def thumbKey (p : ProcThumb) : Option Nat :=
  if p.resolution.data.contains 'x' then
    pyInt (.str ((p.resolution.splitOn "x").headD ""))
  else some 0

/-- Keys for all processed thumbnails; `none` as soon as one key raises. -/
def keysOf : List ProcThumb → Option (List (ProcThumb × Nat))
  | [] => some []
  | p :: l =>
    match thumbKey p, keysOf l with
    | some k, some rest => some ((p, k) :: rest)
    | _, _ => none

/-- Stable descending insertion by key, matching `sorted(..., reverse=True)`. -/
def insertDesc (a : ProcThumb × Nat) : List (ProcThumb × Nat) → List (ProcThumb × Nat)
  | [] => [a]
  | b :: l => if a.2 ≥ b.2 then a :: b :: l else b :: insertDesc a l

/-- Stable descending sort of keyed thumbnails. -/
def sortThumbsDesc : List (ProcThumb × Nat) → List (ProcThumb × Nat)
  | [] => []
  | a :: l => insertDesc a (sortThumbsDesc l)

/-- The `processed_thumbnails` expression of main.py (lines 151-154): keep the
thumbnails with a truthy url, render their `WxH` resolution, sort descending by
the numeric prefix; `none` models the `ValueError` when a kept thumbnail has no
width (its prefix renders as "None"). -/
def procThumbs (ts : List Thumb) : Option (List ProcThumb) :=
  match keysOf ((ts.filter (fun t => strTruthy t.url)).map mkProcThumb) with
  | some pairs => some ((sortThumbsDesc pairs).map Prod.fst)
  | none => none

/-- The fields `get_video_info` reads from the dict `extract_info` returns. -/
structure InfoDict where
  webpage_url_basename : Option String := none
  title : Option String := none
  description : Option String := none
  duration : Option Nat := none
  view_count : Option Nat := none
  thumbnails : List Thumb := []
  formats : List Desc := []
deriving DecidableEq

/-- The JSON record returned on lines 157-166 of main.py. -/
structure Resp where
  title : Option String
  description : Option String
  duration : String
  views : String
  thumbnails : List ProcThumb
  video_formats : List CFmt
  audio_formats : List AFmt
  source : String
deriving DecidableEq

/-- The duration value read from the info dict, as a `format_duration` input. -/
def durInOf : Option Nat → DurIn
  | some n => .int n
  | none => .none

/-- A Python exception escaping the `try` body of `get_video_info`. -/
inductive PyEx where
  | http (code : Nat)
  | keyError
  | valueError
deriving DecidableEq

/-- The body of the `try` block of `get_video_info` after `extract_info`
returns (lines 135-166 of main.py): the bot-protection check raises a 403 when
the basename is "confirm" or the title is `None`; then the classifier, the
thumbnail processing and the duration formatting run, any of which can raise. -/
def infoBody (d : InfoDict) : Except PyEx Resp :=
  if d.webpage_url_basename == some "confirm" || d.title == (none : Option String) then
    .error (.http 403)
  else
    match filter_formats d.formats with
    | none => .error .keyError
    | some (cs, auds) =>
      match procThumbs d.thumbnails with
      | none => .error .valueError
      | some ths =>
        match format_duration (durInOf d.duration) with
        | none => .error .valueError
        | some ds =>
          .ok { title := d.title, description := d.description, duration := ds,
                views := format_views d.view_count, thumbnails := ths,
                video_formats := cs, audio_formats := auds, source := "yt-dlp" }

/-- The observable outcome of `get_video_info` after its except-chain.
FastAPI's `HTTPException` is a subclass of `Exception`, so any exception raised
inside the `try` block — the 403 `HTTPException` included — is caught by the
final `except Exception` handler (line 182) and re-raised as a 500. -/
def get_video_info (d : InfoDict) : Except Nat Resp :=
  match infoBody d with
  | .ok r => .ok r
  | .error _ => .error 500

/-- Concrete eligible combined descriptor deduplicated by its numeric height. -/
def d2a : Desc :=
  { url := some "u1", vcodec := some "avc1", acodec := some "aac",
    ext := some "mp4", height := some 720, format_id := some "22" }

/-- Concrete eligible combined descriptor with no height whose format note is
the digit string "720". -/
def d2b : Desc :=
  { url := some "u2", vcodec := some "avc1", acodec := some "aac",
    ext := some "mp4", format_note := some "720", format_id := some "18" }

/-- The combined record the classifier builds from `d2a`. -/
def c2a : CFmt :=
  { resolution := "720p", ext := some "mp4", filesize := none,
    url := "u1", format_id := "22" }

/-- The combined record the classifier builds from `d2b`. -/
def c2b : CFmt :=
  { resolution := "720p", ext := some "mp4", filesize := none,
    url := "u2", format_id := "18" }

/-- Concrete descriptor that qualifies as combined but has no `format_id` key. -/
def d4 : Desc :=
  { url := some "u", vcodec := some "avc1", acodec := some "aac",
    ext := some "mp4", height := some 360 }

/-- Concrete eligible audio descriptor with extension "webm" and codec "opus". -/
def d5 : Desc :=
  { url := some "u", vcodec := some "none", acodec := some "opus",
    ext := some "webm", format_note := some "medium", format_id := some "251" }

/-- Concrete eligible audio descriptor with extension "m4a". -/
def d6 : Desc :=
  { url := some "u", vcodec := some "none", acodec := some "mp4a.40.2",
    ext := some "m4a", format_note := some "medium", format_id := some "140" }

/-- The audio record the classifier builds from `d6`. -/
def a6 : AFmt :=
  { quality := .str "medium", ext := some "m4a", filesize := none,
    url := "u", format_id := "140" }

/-- Concrete info dict with no title (and nothing else set). -/
def d9 : InfoDict := {}

/-- Concrete eligible combined-shaped descriptor with neither a height nor a
format note. -/
def f10 : Desc :=
  { url := some "u", vcodec := some "avc1", acodec := some "aac",
    ext := some "mp4", format_id := some "18" }

/-- Concrete combined record with a non-numeric resolution string. -/
def cLow : CFmt :=
  { resolution := "Low", ext := some "mp4", filesize := none,
    url := "u", format_id := "1" }

theorem step_cases (s t : St) (f : Desc) (h : step s f = some t) :
    t = s ∨
    (eligible f = true ∧ isCombinedShape f = true ∧
      ∃ r fid, resOf f = some r ∧ r ∉ s.seen ∧ f.format_id = some fid ∧
        t = ⟨s.combined ++ [mkCFmt f r fid], s.audio, s.seen ++ [r]⟩) ∨
    (eligible f = true ∧ isCombinedShape f = false ∧ isAudioShape f = true ∧
      ∃ fid, f.format_id = some fid ∧
        t = ⟨s.combined, s.audio ++ [mkAFmt f fid], s.seen⟩) := by
  unfold step at h
  split at h
  next he =>
    split at h
    next hc =>
      split at h
      next r hr =>
        split at h
        next hseen => left; exact (Option.some.inj h).symm
        next hseen =>
          split at h
          next fid hfid =>
            right; left
            exact ⟨he, hc, r, fid, hr, hseen, hfid, (Option.some.inj h).symm⟩
          next hfid => cases h
      next hr => left; exact (Option.some.inj h).symm
    next hc =>
      split at h
      next ha =>
        split at h
        next fid hfid =>
          right; right
          refine ⟨he, ?_, ha, fid, hfid, (Option.some.inj h).symm⟩
          simpa using hc
        next hfid => cases h
      next ha => left; exact (Option.some.inj h).symm
  next he => left; exact (Option.some.inj h).symm

theorem step_none (s : St) (f : Desc) (h : step s f = none) : f.format_id = none := by
  unfold step at h
  split at h
  next he =>
    split at h
    next hc =>
      split at h
      next r hr =>
        split at h
        next hseen => cases h
        next hseen =>
          split at h
          next fid hfid => cases h
          next hfid => exact hfid
      next hr => cases h
    next hc =>
      split at h
      next ha =>
        split at h
        next fid hfid => cases h
        next hfid => exact hfid
      next ha => cases h
  next he => cases h

theorem runSteps_append (l1 l2 : List Desc) (s : St) :
    runSteps (l1 ++ l2) s =
      match runSteps l1 s with
      | some t => runSteps l2 t
      | none => none := by
  induction l1 generalizing s with
  | nil => rfl
  | cons f l ih =>
    simp only [List.cons_append, runSteps]
    cases step s f with
    | some t => exact ih t
    | none => rfl

theorem filter_formats_eq {fs : List Desc} {cs : List CFmt} {auds : List AFmt}
    (h : filter_formats fs = some (cs, auds)) :
    ∃ s, runSteps fs initSt = some s ∧ cs = sortCombined s.combined ∧
      auds = dedupAudio s.audio [] := by
  unfold filter_formats at h
  cases hr : runSteps fs initSt with
  | none => rw [hr] at h; cases h
  | some s =>
    rw [hr] at h
    have hp := Option.some.inj h
    exact ⟨s, rfl, (congrArg Prod.fst hp).symm, (congrArg Prod.snd hp).symm⟩

theorem dedupAudio_subset (l : List AFmt) (seen : List (Option String × QualVal)) :
    ∀ a ∈ dedupAudio l seen, a ∈ l := by
  induction l generalizing seen with
  | nil => intro a ha; cases ha
  | cons b l ih =>
    intro a ha
    unfold dedupAudio at ha
    by_cases hb : (b.ext, b.quality) ∈ seen
    · rw [if_pos hb] at ha; exact List.mem_cons_of_mem _ (ih seen a ha)
    · rw [if_neg hb] at ha
      rcases List.mem_cons.mp ha with h | h
      · exact h ▸ List.mem_cons_self _ _
      · exact List.mem_cons_of_mem _ (ih _ a h)

theorem dedupAudio_notin (l : List AFmt) (seen : List (Option String × QualVal)) :
    ∀ a ∈ dedupAudio l seen, (a.ext, a.quality) ∉ seen := by
  induction l generalizing seen with
  | nil => intro a ha; cases ha
  | cons b l ih =>
    intro a ha
    unfold dedupAudio at ha
    by_cases hb : (b.ext, b.quality) ∈ seen
    · rw [if_pos hb] at ha; exact ih seen a ha
    · rw [if_neg hb] at ha
      rcases List.mem_cons.mp ha with h | h
      · subst h; exact hb
      · intro hmem
        exact ih _ a h (List.mem_cons_of_mem _ hmem)

theorem dedupAudio_pairwise (l : List AFmt) (seen : List (Option String × QualVal)) :
    (dedupAudio l seen).Pairwise
      (fun a b => ¬(a.ext = b.ext ∧ a.quality = b.quality)) := by
  induction l generalizing seen with
  | nil => exact List.Pairwise.nil
  | cons b l ih =>
    unfold dedupAudio
    by_cases hb : (b.ext, b.quality) ∈ seen
    · rw [if_pos hb]; exact ih seen
    · rw [if_neg hb]
      refine List.Pairwise.cons ?_ (ih _)
      intro a ha hcon
      have hnotin := dedupAudio_notin l ((b.ext, b.quality) :: seen) a ha
      apply hnotin
      rw [← hcon.1, ← hcon.2]
      exact List.mem_cons_self _ _

theorem combinedShape_iff (f : Desc) :
    isCombinedShape f = true ↔
      (f.vcodec ≠ some "none" ∧ f.acodec ≠ some "none" ∧ f.ext = some "mp4") := by
  simp [isCombinedShape, and_assoc]

theorem audioShape_iff (f : Desc) :
    isAudioShape f = true ↔
      (f.vcodec = some "none" ∧ f.acodec ≠ some "none" ∧
        (f.ext = some "m4a" ∨ f.ext = some "mp4")) := by
  simp [isAudioShape, and_assoc]

theorem runSteps_prov (fs : List Desc) (l : List Desc) :
    ∀ s t : St, (∀ f ∈ l, f ∈ fs) → runSteps l s = some t →
      (∀ x ∈ t.combined, x ∈ s.combined ∨ ∃ f ∈ fs, CombProv f x) ∧
      (∀ y ∈ t.audio, y ∈ s.audio ∨ ∃ f ∈ fs, AudProv f y) := by
  induction l with
  | nil =>
    intro s t _ h
    have hst : s = t := Option.some.inj h
    subst hst
    exact ⟨fun x hx => Or.inl hx, fun y hy => Or.inl hy⟩
  | cons f l ih =>
    intro s t hsub h
    unfold runSteps at h
    cases hstep : step s f with
    | none => rw [hstep] at h; cases h
    | some u =>
      rw [hstep] at h
      have hu := ih u t (fun g hg => hsub g (List.mem_cons_of_mem _ hg)) h
      have hf : f ∈ fs := hsub f (List.mem_cons_self _ _)
      rcases step_cases s u f hstep with hus | ⟨he, hc, r, fid, hr, hseen, hfid, hus⟩ |
        ⟨he, hc, ha, fid, hfid, hus⟩
      · subst hus; exact hu
      · subst hus
        constructor
        · intro x hx
          rcases hu.1 x hx with hmem | hex
          · rcases List.mem_append.mp hmem with h1 | h1
            · exact Or.inl h1
            · have hx2 : x = mkCFmt f r fid := List.mem_singleton.mp h1
              right
              refine ⟨f, hf, ?_⟩
              obtain ⟨hv, hac, hext⟩ := (combinedShape_iff f).mp hc
              exact ⟨he, hv, hac, hext, r, fid, hr, hfid, hx2⟩
          · exact Or.inr hex
        · intro y hy
          rcases hu.2 y hy with hmem | hex
          · exact Or.inl hmem
          · exact Or.inr hex
      · subst hus
        constructor
        · intro x hx
          rcases hu.1 x hx with hmem | hex
          · exact Or.inl hmem
          · exact Or.inr hex
        · intro y hy
          rcases hu.2 y hy with hmem | hex
          · rcases List.mem_append.mp hmem with h1 | h1
            · exact Or.inl h1
            · have hy2 : y = mkAFmt f fid := List.mem_singleton.mp h1
              right
              refine ⟨f, hf, ?_⟩
              obtain ⟨hv, hac, hext⟩ := (audioShape_iff f).mp ha
              exact ⟨he, hv, hac, hext, fid, hfid, hy2⟩
          · exact Or.inr hex

theorem runSteps_keys (l : List Desc) :
    ∀ s t : St, runSteps l s = some t →
      (List.Forall₂ (fun x k => x.resolution = resDisplay k) s.combined s.seen ∧
        s.seen.Nodup) →
      List.Forall₂ (fun x k => x.resolution = resDisplay k) t.combined t.seen ∧
        t.seen.Nodup := by
  induction l with
  | nil =>
    intro s t h hP
    have hst : s = t := Option.some.inj h
    subst hst
    exact hP
  | cons f l ih =>
    intro s t h hP
    unfold runSteps at h
    cases hstep : step s f with
    | none => rw [hstep] at h; cases h
    | some u =>
      rw [hstep] at h
      apply ih u t h
      rcases step_cases s u f hstep with hus | ⟨_, _, r, fid, hr, hseen, hfid, hus⟩ |
        ⟨_, _, _, fid, hfid, hus⟩
      · subst hus; exact hP
      · subst hus
        constructor
        · exact List.rel_append hP.1 (List.Forall₂.cons rfl List.Forall₂.nil)
        · simp [List.nodup_append, hP.2, hseen]
      · subst hus; exact hP

theorem runSteps_total (l : List Desc) :
    ∀ s, (∀ f ∈ l, (f.format_id).isSome = true) → (runSteps l s).isSome = true := by
  induction l with
  | nil => intro s _; rfl
  | cons f l ih =>
    intro s hl
    unfold runSteps
    cases hstep : step s f with
    | none =>
      have hn := step_none s f hstep
      have h2 := hl f (List.mem_cons_self _ _)
      rw [hn] at h2; cases h2
    | some u => exact ih u (fun g hg => hl g (List.mem_cons_of_mem _ hg))

theorem runSteps_id (l : List Desc) :
    (∀ f ∈ l, ∀ s, step s f = some s) → ∀ s, runSteps l s = some s := by
  induction l with
  | nil => intro _ s; rfl
  | cons f fs ih =>
    intro hid s
    unfold runSteps
    rw [hid f (List.mem_cons_self _ _) s]
    exact ih (fun g hg => hid g (List.mem_cons_of_mem _ hg)) s

theorem step_output_desc (s : St) (f : Desc)
    (hv : f.vcodec = none) (hh : f.height = none) (hn : f.format_note = none) :
    step s f = some s := by
  have hres : resOf f = none := by simp [resOf, noteVal, hh, hn]
  have ha : isAudioShape f = false := by simp [isAudioShape, hv]
  unfold step
  by_cases he : eligible f = true <;> by_cases hc : isCombinedShape f = true <;>
    simp [he, hc, hres, ha]

/-- C1: for every input list, every element of the `combined` output of
`filter_formats` comes (via `mkCFmt`) from an input descriptor with a
non-"none" video codec, a non-"none" audio codec and extension "mp4", and
every element of the `audioOnly` output comes (via `mkAFmt`) from an input
descriptor whose video codec is "none" (see `CombProv` and `AudProv`). -/
theorem C1_output_provenance (fs : List Desc) (cs : List CFmt) (auds : List AFmt)
    (h : filter_formats fs = some (cs, auds)) :
    (∀ x ∈ cs, ∃ f ∈ fs, CombProv f x) ∧ (∀ y ∈ auds, ∃ f ∈ fs, AudProv f y) := by
  obtain ⟨s, hrun, hcs, hauds⟩ := filter_formats_eq h
  have hprov := runSteps_prov fs fs initSt s (fun f hf => hf) hrun
  constructor
  · intro x hx
    have hx2 : x ∈ s.combined := by
      rw [hcs] at hx
      exact ((List.perm_insertionSort keyLe s.combined).mem_iff).mp hx
    rcases hprov.1 x hx2 with hmem | hex
    · cases hmem
    · exact hex
  · intro y hy
    have hy2 : y ∈ s.audio := by
      rw [hauds] at hy
      exact dedupAudio_subset _ _ y hy
    rcases hprov.2 y hy2 with hmem | hex
    · cases hmem
    · exact hex

theorem C1_output_provenance_witness :
    (∀ x ∈ [c2a], ∃ f ∈ [d2a, d6], CombProv f x) ∧
    (∀ y ∈ [a6], ∃ f ∈ [d2a, d6], AudProv f y) :=
  C1_output_provenance [d2a, d6] [c2a] [a6] (by decide)

/-- C2 (counterexample): the descriptors `d2a` (numeric height 720) and `d2b`
(no height, format note "720") survive deduplication together — their raw keys
differ — yet both render the resolution string "720p", so two elements of the
combined output share the same resolution value. -/
theorem C2_dedup_counterexample :
    filter_formats [d2a, d2b] = some ([c2a, c2b], []) ∧
    c2a.resolution = c2b.resolution ∧ c2a ≠ c2b := by decide

/-- C2 (amended): deduplication of combined entries is keyed on the raw
height-or-note value, not on the rendered resolution string: along the loop the
seen keys are pairwise distinct (`Nodup`) and align one-to-one with the
appended combined entries (each entry's resolution string renders its key);
the final combined output is a permutation (the sort) of those entries.  Two
entries may still share a rendered resolution string when a numeric height and
a textual note render alike.  For the audio output the claim holds as stated:
no two elements share the same (ext, quality) pair. -/
theorem C2_dedup_amended (fs : List Desc) (s : St)
    (h : runSteps fs initSt = some s) :
    s.seen.Nodup ∧
    List.Forall₂ (fun x k => x.resolution = resDisplay k) s.combined s.seen ∧
    ∀ cs auds, filter_formats fs = some (cs, auds) →
      cs.Perm s.combined ∧
      auds.Pairwise (fun a b => ¬(a.ext = b.ext ∧ a.quality = b.quality)) := by
  have hkeys := runSteps_keys fs initSt s h ⟨List.Forall₂.nil, List.nodup_nil⟩
  refine ⟨hkeys.2, hkeys.1, ?_⟩
  intro cs auds hf
  obtain ⟨s2, hrun2, hcs, hauds⟩ := filter_formats_eq hf
  rw [h] at hrun2
  obtain rfl : s = s2 := Option.some.inj hrun2
  constructor
  · rw [hcs]; exact List.perm_insertionSort keyLe _
  · rw [hauds]; exact dedupAudio_pairwise _ []

theorem C2_dedup_amended_witness :
    [ResVal.num 720, ResVal.str "720"].Nodup ∧
    List.Forall₂ (fun x k => x.resolution = resDisplay k) [c2a, c2b]
      [ResVal.num 720, ResVal.str "720"] ∧
    ([c2a, c2b].Perm [c2a, c2b] ∧
      ([] : List AFmt).Pairwise
        (fun a b => ¬(a.ext = b.ext ∧ a.quality = b.quality))) :=
  have h := C2_dedup_amended [d2a, d2b]
    ⟨[c2a, c2b], [], [ResVal.num 720, ResVal.str "720"]⟩ (by decide)
  ⟨h.1, h.2.1, h.2.2 [c2a, c2b] [] (by decide)⟩

/-- C3: for every input list, the combined output of `filter_formats` is
sorted in ascending order of the numeric sort key of line 90 (`keyLe` compares
by `pySortKey`, which reads the resolution digits and maps a non-numeric
resolution to the lowest rank 0, as the second conjunct states). -/
theorem C3_sorted_ascending (fs : List Desc) (cs : List CFmt) (auds : List AFmt)
    (h : filter_formats fs = some (cs, auds)) :
    List.Sorted keyLe cs ∧
    ∀ x : CFmt, isDigits (stripP x.resolution) = false → pySortKey x = 0 := by
  constructor
  · obtain ⟨s, _, hcs, _⟩ := filter_formats_eq h
    rw [hcs]
    exact List.sorted_insertionSort keyLe s.combined
  · intro x hx
    simp [pySortKey, hx]

theorem C3_sorted_ascending_witness :
    List.Sorted keyLe [c2a, c2b] ∧ pySortKey cLow = 0 :=
  ⟨(C3_sorted_ascending [d2a, d2b] [c2a, c2b] [] (by decide)).1,
   (C3_sorted_ascending [d2a, d2b] [c2a, c2b] [] (by decide)).2 cLow (by decide)⟩

/-- C4 (counterexample): the descriptor `d4` passes the eligibility filter and
qualifies as a combined stream but has no `format_id` key, so the bare
subscript `f['format_id']` raises a `KeyError`: the classifier is not total. -/
theorem C4_total_counterexample : filter_formats [d4] = none := by decide

/-- C4 (amended): the classifier returns its two output lists without raising
provided every input descriptor carries a `format_id` field; all other missing
or malformed fields degrade to fallback values or to skipping the record. -/
theorem C4_total_amended (fs : List Desc)
    (h : ∀ f ∈ fs, (f.format_id).isSome = true) :
    (filter_formats fs).isSome = true := by
  unfold filter_formats
  cases hr : runSteps fs initSt with
  | none =>
    have ht := runSteps_total fs initSt h
    rw [hr] at ht; cases ht
  | some s => rfl

theorem C4_total_amended_witness : (filter_formats [d2a]).isSome = true :=
  C4_total_amended [d2a] (by decide)

/-- C5 (counterexample): the eligible descriptor `d5` has video codec "none",
audio codec "opus" (present and not "none") and extension "webm" — in the
claimed whitelist {m4a, mp4, opus, webm} — yet the code does not classify it
as audio-only and it appears in neither output list: line 81 only accepts
extensions "m4a" and "mp4". -/
theorem C5_audio_counterexample :
    eligible d5 = true ∧ d5.vcodec = some "none" ∧ d5.acodec = some "opus" ∧
    d5.ext = some "webm" ∧ isAudioShape d5 = false ∧
    filter_formats [d5] = some ([], []) := by decide

/-- C5 (amended): for every descriptor passing the eligibility filter, it
qualifies as audio-only exactly when its video codec is the "none" marker, its
audio codec differs from "none" (an absent audio codec also passes), and its
extension is "m4a" or "mp4" (not "opus"/"webm"); such a descriptor with a
format id appears, alone, in the audioOnly output. -/
theorem C5_audio_amended (f : Desc) (h : eligible f = true) :
    (isAudioShape f = true ↔
      (f.vcodec = some "none" ∧ f.acodec ≠ some "none" ∧
        (f.ext = some "m4a" ∨ f.ext = some "mp4"))) ∧
    ∀ fid, isAudioShape f = true → f.format_id = some fid →
      filter_formats [f] = some ([], [mkAFmt f fid]) := by
  refine ⟨audioShape_iff f, ?_⟩
  intro fid ha hfid
  have hv : f.vcodec = some "none" := ((audioShape_iff f).mp ha).1
  have hcomb : isCombinedShape f = false := by simp [isCombinedShape, hv]
  simp [filter_formats, runSteps, step, h, hcomb, ha, hfid, initSt,
    sortCombined, dedupAudio]

theorem C5_audio_amended_witness :
    (isAudioShape d6 = true ↔
      (d6.vcodec = some "none" ∧ d6.acodec ≠ some "none" ∧
        (d6.ext = some "m4a" ∨ d6.ext = some "mp4"))) ∧
    filter_formats [d6] = some ([], [a6]) :=
  have h := C5_audio_amended d6 (by decide)
  ⟨h.1, h.2 "140" (by decide) (by decide)⟩

/-- C6 (counterexample): the audio-only output entry built from `d6` does not
survive re-classification: fed back as a descriptor it carries no `vcodec`
key, so it qualifies as neither combined (extension is "m4a", not "mp4") nor
audio-only (`.get('vcodec')` gives `None`, not "none"), and the re-applied
classifier returns two empty lists instead of the same output. -/
theorem C6_idempotence_counterexample :
    filter_formats [d6] = some ([], [a6]) ∧
    filter_formats [afmtToDesc a6] = some ([], []) ∧
    ([] : List AFmt) ≠ [a6] := by decide

/-- C6 (amended): the classifier is not idempotent; re-applying it to its own
output — any combined entries and audio entries read back as descriptors —
always yields two empty lists, because output records carry neither codec keys
nor a height/format-note key: a combined-shaped record (ext "mp4") has no
resolution signal and is skipped, and any other record fails both shape
tests.  Idempotence holds only when the output is empty. -/
theorem C6_idempotence_amended (cs : List CFmt) (auds : List AFmt) :
    filter_formats (cs.map cfmtToDesc ++ auds.map afmtToDesc) = some ([], []) := by
  have hid : ∀ f ∈ cs.map cfmtToDesc ++ auds.map afmtToDesc, ∀ s, step s f = some s := by
    intro f hf
    rcases List.mem_append.mp hf with hmem | hmem
    · obtain ⟨x, _, hx⟩ := List.mem_map.mp hmem
      subst hx
      intro s
      exact step_output_desc s (cfmtToDesc x) rfl rfl rfl
    · obtain ⟨y, _, hy⟩ := List.mem_map.mp hmem
      subst hy
      intro s
      exact step_output_desc s (afmtToDesc y) rfl rfl rfl
  unfold filter_formats
  rw [runSteps_id _ hid initSt]
  rfl

/-- C7 (counterexample): the duration formatter maps 0 to "00:00" (not "N/A"),
65 to "01:05" (not "1:05") and 3661 to "01:01:01" (not "1:01:01"): minutes and
hours are zero-padded to two digits and a zero duration is formatted, not
replaced by "N/A". -/
theorem C7_duration_counterexample :
    format_duration (DurIn.int 0) = some "00:00" ∧ "00:00" ≠ "N/A" ∧
    format_duration (DurIn.int 65) = some "01:05" ∧ "01:05" ≠ "1:05" ∧
    format_duration (DurIn.int 3661) = some "01:01:01" ∧
    "01:01:01" ≠ "1:01:01" := by decide

/-- C7 (amended): the duration formatter maps `None` to "N/A", 0 to "00:00",
65 to "01:05" and 3661 to "01:01:01" (HH:MM:SS when hours > 0, else MM:SS,
every component zero-padded to two digits; only `None` gives "N/A"). -/
theorem C7_duration_amended :
    format_duration DurIn.none = some "N/A" ∧
    format_duration (DurIn.int 0) = some "00:00" ∧
    format_duration (DurIn.int 65) = some "01:05" ∧
    format_duration (DurIn.int 3661) = some "01:01:01" := by decide

/-- C8 (counterexample): `format_duration` has no try/except around
`int(seconds)`, so on the non-integer-convertible input "abc" it raises
(the `none` result) instead of returning "N/A". -/
theorem C8_convert_counterexample :
    pyInt (DurIn.str "abc") = none ∧ format_duration (DurIn.str "abc") = none := by decide

/-- C8 (amended): the duration formatter returns a string exactly on `None`
(which gives "N/A") and on inputs the `int` conversion accepts; on any other
input it raises rather than returning "N/A". -/
theorem C8_convert_amended (v : DurIn) :
    (format_duration v).isSome = true ↔
      (v = DurIn.none ∨ (pyInt v).isSome = true) := by
  cases v with
  | none => simp [format_duration]
  | int n =>
    simp [format_duration, pyInt]
    split <;> rfl
  | str s =>
    by_cases hs : isDigits s = true
    · simp [format_duration, pyInt, hs]
      split <;> rfl
    · simp [format_duration, pyInt, hs]

/-- C9 (counterexample): on an extraction result with no title the endpoint
does not return a record at all — there is no "Untitled Video" fallback in the
code: the bot-protection check raises a 403 `HTTPException`, which the generic
`except Exception` handler converts into a 500. -/
theorem C9_title_counterexample :
    d9.title = none ∧ infoBody d9 = .error (.http 403) ∧
    get_video_info d9 = .error 500 := ⟨rfl, rfl, rfl⟩

/-- C9 (amended): when no title is supplied the endpoint returns no record:
the body raises a 403 bot-block `HTTPException`, and the endpoint's own
`except Exception` handler re-raises it as a 500; no "Untitled Video" fallback
exists anywhere in the assembler. -/
theorem C9_title_amended (d : InfoDict) (h : d.title = none) :
    infoBody d = .error (.http 403) ∧ get_video_info d = .error 500 := by
  have hcond : (d.webpage_url_basename == some "confirm"
      || d.title == (none : Option String)) = true := by simp [h]
  have hb : infoBody d = .error (.http 403) := by
    unfold infoBody; rw [if_pos hcond]
  refine ⟨hb, ?_⟩
  unfold get_video_info
  rw [hb]

theorem C9_title_amended_witness :
    infoBody d9 = Except.error (PyEx.http 403) ∧
    get_video_info d9 = Except.error 500 :=
  C9_title_amended d9 rfl

/-- C10: a descriptor that passes the eligibility filter and has combined
shape (non-"none" codecs, extension "mp4") but carries neither a height key
nor a format-note key leaves the loop state unchanged and appears in neither
output list: removing it from any input list does not change the classifier's
output (the drop policy, not the "N/A"-placeholder policy). -/
theorem C10_drop_policy (f : Desc) (h1 : eligible f = true)
    (h2 : isCombinedShape f = true) (h3 : f.height = none)
    (h4 : f.format_note = none) :
    (∀ s, step s f = some s) ∧
    ∀ fs1 fs2, filter_formats (fs1 ++ f :: fs2) = filter_formats (fs1 ++ fs2) := by
  have hres : resOf f = none := by simp [resOf, noteVal, h3, h4]
  have hstep : ∀ s, step s f = some s := by
    intro s
    unfold step
    rw [if_pos h1, if_pos h2, hres]
  refine ⟨hstep, ?_⟩
  intro fs1 fs2
  unfold filter_formats
  rw [runSteps_append fs1 (f :: fs2) initSt, runSteps_append fs1 fs2 initSt]
  cases hr : runSteps fs1 initSt with
  | none => simp only
  | some t =>
    simp only
    have hskip : runSteps (f :: fs2) t = runSteps fs2 t := by
      have hcons : runSteps (f :: fs2) t =
          match step t f with
          | some u => runSteps fs2 u
          | none => none := rfl
      rw [hcons, hstep t]
    rw [hskip]

theorem C10_drop_policy_witness :
    step initSt f10 = some initSt ∧
    filter_formats ([d6] ++ f10 :: [d2a]) = filter_formats ([d6] ++ [d2a]) :=
  have h := C10_drop_policy f10 (by decide) (by decide) rfl rfl
  ⟨h.1 initSt, h.2 [d6] [d2a]⟩
